import Mathlib

/-!
Shallow embedding of the `viesparser` Go package (files `error.go` and the
main parser file) and verification of claims about `ParseAddress`.

Strings are modelled as `List Char` (Go strings are indexed by bytes, but
every operation used here — `strings.TrimSpace`, `strings.Split` on a
one-character separator, `strings.Count` of `"\n"`, `strings.Replace`,
equality — acts on whole Unicode code points, so the rune-list view is
faithful).  Go slice indexing and slicing can panic; outcomes are modelled
by `GoResult` with constructors `ok`, `fail` and `panic`.
-/

/-- The set of runes trimmed by Go `strings.TrimSpace`
(`unicode.IsSpace`): ASCII whitespace, NEL, NBSP and the Unicode
space separators. -/
def goIsSpace (c : Char) : Bool :=
  let n := c.toNat
  n == 9 || n == 10 || n == 11 || n == 12 || n == 13 || n == 32 ||
  n == 0x85 || n == 0xA0 || n == 0x1680 ||
  (0x2000 ≤ n && n ≤ 0x200A) ||
  n == 0x2028 || n == 0x2029 || n == 0x202F || n == 0x205F || n == 0x3000

/-- Drop leading whitespace (left half of Go `strings.TrimSpace`). -/
def trimLeft (l : List Char) : List Char :=
  l.dropWhile goIsSpace

/-- Drop trailing whitespace (right half of Go `strings.TrimSpace`). -/
def trimRight (l : List Char) : List Char :=
  (l.reverse.dropWhile goIsSpace).reverse

/-- Go `strings.TrimSpace`. -/
def trimSpace (l : List Char) : List Char :=
  trimRight (trimLeft l)

/-- Coerce a Lean string literal to the rune-list model. -/
def gs (s : String) : List Char :=
  s.data

/-- `startsWith l pat` holds when `pat` is an initial segment of `l`
(Go `strings.HasPrefix` specialised to what `strings.Replace` needs). -/
def startsWith : List Char → List Char → Bool
  | _, [] => true
  | [], _ :: _ => false
  | c :: cs, p :: ps => c = p && startsWith cs ps

/-- Go `strings.Replace(s, old, new, 1)`: replace the first occurrence of
`pat` by `rep`. -/
def replaceFirst (pat rep : List Char) : List Char → List Char
  | [] => if pat.isEmpty then rep else []
  | c :: rest =>
    if startsWith (c :: rest) pat then rep ++ (c :: rest).drop pat.length
    else c :: replaceFirst pat rep rest

/-- `Config` from the Go source: one flag, `IgnoreGreek`. -/
structure Config where
  IgnoreGreek : Bool
deriving DecidableEq

/-- `ParsedAddress` from the Go source (field order as declared there). -/
structure ParsedAddress where
  Street : List Char
  City : List Char
  Zip : List Char
deriving DecidableEq

/-- The four error values of `error.go`. -/
inductive GoErr where
  | invalidOption
  | missingAddress
  | missingCountryCode
  | unsupportedCountryCode
deriving DecidableEq

/-- Outcome of a Go call: a normal return of a value, a normal return of
an error (with the zero-valued result), or a runtime panic from an
out-of-range index or slice bound. -/
inductive GoResult where
  | ok : ParsedAddress → GoResult
  | fail : GoErr → GoResult
  | panic : GoResult
deriving DecidableEq

/-- Go indexing `l[i]` on a `[]string`: panic when out of range,
otherwise continue with the element. -/
def goIndex (l : List (List Char)) (i : Nat) (k : List Char → GoResult) : GoResult :=
  match l.get? i with
  | none => GoResult.panic
  | some x => k x

/-- Go slicing `l[:n]` with a possibly negative bound `n`. -/
def goSliceTake (l : List (List Char)) (n : Int) : Option (List (List Char)) :=
  if 0 ≤ n ∧ n ≤ (l.length : Int) then some (l.take n.toNat) else none

/-- Go slicing `l[a:b]` with possibly negative bounds. -/
def goSliceRange (l : List (List Char)) (a b : Int) : Option (List (List Char)) :=
  if 0 ≤ a ∧ a ≤ b ∧ b ≤ (l.length : Int) then some ((l.take b.toNat).drop a.toNat)
  else none

/-- `SupportedCountryCodes` from the Go source, in source order. -/
def SupportedCountryCodes : List (List Char) :=
  [gs "CZ", gs "SK", gs "NL", gs "BE", gs "FR", gs "PT", gs "IT", gs "FI",
   gs "RO", gs "SI", gs "AT", gs "PL", gs "HR", gs "EL", gs "DK", gs "EE"]

/-- The country group dispatched on one newline
(`[]string{nl, be, fr, fi, at, pl, dk}` in the source). -/
def newlineOneCodes : List (List Char) :=
  [gs "NL", gs "BE", gs "FR", gs "FI", gs "AT", gs "PL", gs "DK"]

/-- The country group dispatched on zero newlines (`[]string{si, hr}`). -/
def commaCodes : List (List Char) :=
  [gs "SI", gs "HR"]

/-- The NL/BE/FR/FI/AT/PL/DK rule: split on newline, split line 2 on
space, street = line 1 trimmed, zip = token 0 trimmed, city = token 1
trimmed.  Indexing `parts[1]` and `locationParts[1]` may panic. -/
def parseGroup1 (address : List Char) : GoResult :=
  goIndex (List.splitOn '\n' address) 1 fun p1 =>
  goIndex (List.splitOn '\n' address) 0 fun p0 =>
  goIndex (List.splitOn ' ' p1) 0 fun lp0 =>
  goIndex (List.splitOn ' ' p1) 1 fun lp1 =>
  GoResult.ok ⟨trimSpace p0, trimSpace lp1, trimSpace lp0⟩

/-- Street assembly of the SI/HR rule: when the comma split has exactly
three parts the street is part 0 trimmed ++ ", " ++ part 1 trimmed,
otherwise part 0 trimmed. -/
def siHrStreet (parts : List (List Char)) (p0 : List Char) : List Char :=
  if parts.length = 3 then trimSpace p0 ++ gs ", " ++ trimSpace ((parts.get? 1).getD [])
  else trimSpace p0

/-- The SI/HR rule: split on comma; the last part is split on space into
zip (token 0) and city (token 1), both used untrimmed. -/
def parseSiHr (address : List Char) : GoResult :=
  goIndex (List.splitOn ',' address) 0 fun p0 =>
  goIndex (List.splitOn ',' address) ((List.splitOn ',' address).length - 1) fun plast =>
  goIndex (List.splitOn ' ' plast) 0 fun lp0 =>
  goIndex (List.splitOn ' ' plast) 1 fun lp1 =>
  GoResult.ok ⟨siHrStreet (List.splitOn ',' address) p0, lp1, lp0⟩

/-- Common tail of both SK branches: strip the district prefixes
`"mestská časť "` then `"m. č. "` (first occurrence each) from the city,
then trim all three fields. -/
def skFinish (street city zip : List Char) : GoResult :=
  GoResult.ok
    ⟨trimSpace street,
     trimSpace (replaceFirst (gs "m. č. ") []
       (replaceFirst (gs "mestská časť ") [] city)),
     trimSpace zip⟩

/-- The SK one-newline rule, with the special case for a second line that
is exactly `"Slovensko"`: then zip/city come from line 1 and the street is
emptied; otherwise they come from the last line. -/
def parseSk1 (address : List Char) : GoResult :=
  goIndex (List.splitOn '\n' address) 0 fun p0 =>
  goIndex (List.splitOn '\n' address) 1 fun p1 =>
  if p1 = gs "Slovensko" then
    goIndex (List.splitOn ' ' p0) 0 fun lp0 =>
    goIndex (List.splitOn ' ' p0) 1 fun lp1 =>
    skFinish [] lp1 lp0
  else
    goIndex (List.splitOn '\n' address) ((List.splitOn '\n' address).length - 1) fun plast =>
    goIndex (List.splitOn ' ' plast) 0 fun lp0 =>
    goIndex (List.splitOn ' ' plast) 1 fun lp1 =>
    skFinish (trimSpace p0) lp1 lp0

/-- The SK two-newline rule: street = line 1, zip/city from the last
line's space tokens 0 and 1, with district-prefix stripping. -/
def parseSk2 (address : List Char) : GoResult :=
  goIndex (List.splitOn '\n' address) 0 fun p0 =>
  goIndex (List.splitOn '\n' address) ((List.splitOn '\n' address).length - 1) fun plast =>
  goIndex (List.splitOn ' ' plast) 0 fun lp0 =>
  goIndex (List.splitOn ' ' plast) 1 fun lp1 =>
  skFinish (trimSpace p0) lp1 lp0

/-- The CZ one-newline field extraction from the space tokens of the
trimmed last line: city = `lastParts[len-2:len-1]` joined, zip =
`lastParts[:len-2]` joined; both slices panic when there are fewer than
two tokens. -/
def czOne (p0 : List Char) (lastParts : List (List Char)) : GoResult :=
  match goSliceRange lastParts ((lastParts.length : Int) - 2) ((lastParts.length : Int) - 1),
        goSliceTake lastParts ((lastParts.length : Int) - 2) with
  | some citySeg, some zipSeg =>
      GoResult.ok ⟨trimSpace p0, trimSpace citySeg.flatten, trimSpace zipSeg.flatten⟩
  | _, _ => GoResult.panic

/-- The CZ two-newline field extraction: street = line 1 trimmed, city =
line 2 trimmed, zip = `lastParts[:len-2]` joined then trimmed. -/
def czTwo (p0 p1 : List Char) (lastParts : List (List Char)) : GoResult :=
  match goSliceTake lastParts ((lastParts.length : Int) - 2) with
  | some zipSeg => GoResult.ok ⟨trimSpace p0, trimSpace p1, trimSpace zipSeg.flatten⟩
  | none => GoResult.panic

/-- The CZ rule: dispatch on newline count 1 / 2, otherwise
`ErrorInvalidOption`. -/
def parseCz (newlinesCount : Nat) (address : List Char) : GoResult :=
  if newlinesCount = 1 then
    goIndex (List.splitOn '\n' address) 0 fun p0 =>
    goIndex (List.splitOn '\n' address) ((List.splitOn '\n' address).length - 1) fun plast =>
    czOne p0 (List.splitOn ' ' (trimSpace plast))
  else if newlinesCount = 2 then
    goIndex (List.splitOn '\n' address) 0 fun p0 =>
    goIndex (List.splitOn '\n' address) 1 fun p1 =>
    goIndex (List.splitOn '\n' address) ((List.splitOn '\n' address).length - 1) fun plast =>
    czTwo p0 p1 (List.splitOn ' ' (trimSpace plast))
  else GoResult.fail GoErr.invalidOption

/-- The dispatch of `ParseAddress` after the emptiness checks and after
both arguments have been trimmed: the Go chain of `if` blocks, each of
which returns, followed by the final `return ParsedAddress{}, nil`. -/
def parseCore (countryCode address : List Char) : GoResult :=
  if countryCode ∈ SupportedCountryCodes then
    if address.count '\n' = 1 ∧ countryCode ∈ newlineOneCodes then
      parseGroup1 address
    else if address.count '\n' = 0 ∧ countryCode ∈ commaCodes then
      parseSiHr address
    else if countryCode = gs "SK" ∧ address.count '\n' = 1 then
      parseSk1 address
    else if countryCode = gs "SK" ∧ address.count '\n' = 2 then
      parseSk2 address
    else if countryCode = gs "CZ" then
      parseCz (address.count '\n') address
    else GoResult.ok ⟨[], [], []⟩
  else GoResult.fail GoErr.unsupportedCountryCode

/-- `ParseAddress` from the Go source.  The variadic `config ...Config`
parameter is modelled as a list; the Go body never reads it.  The two
emptiness checks compare the RAW arguments (`len(countryCode) == 0`,
`len(address) == 0`); trimming happens only afterwards. -/
def ParseAddress (countryCode address : List Char) (_config : List Config) : GoResult :=
  if countryCode.length = 0 then GoResult.fail GoErr.missingCountryCode
  else if address.length = 0 then GoResult.fail GoErr.missingAddress
  else parseCore (trimSpace countryCode) (trimSpace address)

/-- The street field of a normal return, `[]` otherwise. -/
def streetOf : GoResult → List Char
  | GoResult.ok r => r.Street
  | _ => []

/-! ### General lemmas about trimming -/

theorem dropWhile_self_idem (p : Char → Bool) (l : List Char) :
    (l.dropWhile p).dropWhile p = l.dropWhile p := by
  induction l with
  | nil => rfl
  | cons a l ih =>
    by_cases h : p a
    · simp [List.dropWhile_cons, h, ih]
    · simp [List.dropWhile_cons, h]

theorem dropWhile_append_eq (p : Char → Bool) (l : List Char) :
    ∃ t, t ++ l.dropWhile p = l := by
  induction l with
  | nil => exact ⟨[], rfl⟩
  | cons a l ih =>
    by_cases h : p a
    · obtain ⟨t, ht⟩ := ih
      exact ⟨a :: t, by simp [List.dropWhile_cons, h, ht]⟩
    · exact ⟨[], by simp [List.dropWhile_cons, h]⟩

theorem dropWhile_head_false (p : Char → Bool) (l : List Char) (a : Char)
    (t : List Char) (h : l.dropWhile p = a :: t) : p a = false := by
  induction l with
  | nil => simp at h
  | cons b l ih =>
    by_cases hb : p b
    · exact ih (by simpa [List.dropWhile_cons, hb] using h)
    · rw [List.dropWhile_cons, if_neg hb] at h
      cases h
      simpa using hb

theorem trimRight_append_eq (l : List Char) : ∃ s, trimRight l ++ s = l := by
  obtain ⟨t, ht⟩ := dropWhile_append_eq goIsSpace l.reverse
  refine ⟨t.reverse, ?_⟩
  have h2 := congrArg List.reverse ht
  simpa [trimRight] using h2

theorem trimRight_trimRight (l : List Char) :
    trimRight (trimRight l) = trimRight l := by
  unfold trimRight
  rw [List.reverse_reverse, dropWhile_self_idem]

theorem trimLeft_trimRight_trimLeft (l : List Char) :
    trimLeft (trimRight (trimLeft l)) = trimRight (trimLeft l) := by
  cases hr : trimRight (trimLeft l) with
  | nil => rfl
  | cons a t =>
    obtain ⟨s, hs⟩ := trimRight_append_eq (trimLeft l)
    rw [hr] at hs
    have hhead : goIsSpace a = false := by
      apply dropWhile_head_false goIsSpace l a (t ++ s)
      simpa [trimLeft] using hs.symm
    show (a :: t).dropWhile goIsSpace = a :: t
    rw [List.dropWhile_cons, if_neg (by simp [hhead])]

theorem trimSpace_trimSpace (l : List Char) :
    trimSpace (trimSpace l) = trimSpace l := by
  unfold trimSpace
  rw [trimLeft_trimRight_trimLeft, trimRight_trimRight]

theorem trimSpace_nil : trimSpace [] = [] := rfl

theorem trimSpace_ne_nil_of (l : List Char) (h : trimSpace l ≠ []) : l ≠ [] := by
  intro he
  subst he
  exact h rfl

/-! ### Lemmas about which outcomes each branch can produce -/

/-- `r` is a normal value return or a panic, never an error return. -/
def noFail (r : GoResult) : Prop :=
  ∀ e, r ≠ GoResult.fail e

theorem noFail_ok (pa : ParsedAddress) : noFail (GoResult.ok pa) :=
  fun _ h => GoResult.noConfusion h

theorem noFail_panic : noFail GoResult.panic :=
  fun _ h => GoResult.noConfusion h

theorem noFail_goIndex (l : List (List Char)) (i : Nat)
    (k : List Char → GoResult) (h : ∀ x, noFail (k x)) :
    noFail (goIndex l i k) := by
  unfold goIndex
  cases l.get? i with
  | none => exact noFail_panic
  | some x => exact h x

theorem noFail_skFinish (street city zip : List Char) :
    noFail (skFinish street city zip) :=
  noFail_ok _

theorem noFail_parseGroup1 (address : List Char) : noFail (parseGroup1 address) := by
  unfold parseGroup1
  apply noFail_goIndex; intro p1
  apply noFail_goIndex; intro p0
  apply noFail_goIndex; intro lp0
  apply noFail_goIndex; intro lp1
  exact noFail_ok _

theorem noFail_parseSiHr (address : List Char) : noFail (parseSiHr address) := by
  unfold parseSiHr
  apply noFail_goIndex; intro p0
  apply noFail_goIndex; intro plast
  apply noFail_goIndex; intro lp0
  apply noFail_goIndex; intro lp1
  exact noFail_ok _

theorem noFail_parseSk1 (address : List Char) : noFail (parseSk1 address) := by
  unfold parseSk1
  apply noFail_goIndex; intro p0
  apply noFail_goIndex; intro p1
  by_cases h : p1 = gs "Slovensko"
  · rw [if_pos h]
    apply noFail_goIndex; intro lp0
    apply noFail_goIndex; intro lp1
    exact noFail_skFinish _ _ _
  · rw [if_neg h]
    apply noFail_goIndex; intro plast
    apply noFail_goIndex; intro lp0
    apply noFail_goIndex; intro lp1
    exact noFail_skFinish _ _ _

theorem noFail_parseSk2 (address : List Char) : noFail (parseSk2 address) := by
  unfold parseSk2
  apply noFail_goIndex; intro p0
  apply noFail_goIndex; intro plast
  apply noFail_goIndex; intro lp0
  apply noFail_goIndex; intro lp1
  exact noFail_skFinish _ _ _

theorem noFail_czOne (p0 : List Char) (lastParts : List (List Char)) :
    noFail (czOne p0 lastParts) := by
  unfold czOne
  cases goSliceRange lastParts ((lastParts.length : Int) - 2) ((lastParts.length : Int) - 1) with
  | none => cases goSliceTake lastParts ((lastParts.length : Int) - 2) <;> exact noFail_panic
  | some citySeg =>
    cases goSliceTake lastParts ((lastParts.length : Int) - 2) with
    | none => exact noFail_panic
    | some zipSeg => exact noFail_ok _

theorem noFail_czTwo (p0 p1 : List Char) (lastParts : List (List Char)) :
    noFail (czTwo p0 p1 lastParts) := by
  unfold czTwo
  cases goSliceTake lastParts ((lastParts.length : Int) - 2) with
  | none => exact noFail_panic
  | some zipSeg => exact noFail_ok _

theorem parseCz_fail_eq (n : Nat) (address : List Char) (e : GoErr)
    (h : parseCz n address = GoResult.fail e) : e = GoErr.invalidOption := by
  unfold parseCz at h
  by_cases h1 : n = 1
  · rw [if_pos h1] at h
    exfalso
    revert h
    apply noFail_goIndex; intro p0
    apply noFail_goIndex; intro plast
    exact noFail_czOne _ _
  · rw [if_neg h1] at h
    by_cases h2 : n = 2
    · rw [if_pos h2] at h
      exfalso
      revert h
      apply noFail_goIndex; intro p0
      apply noFail_goIndex; intro p1
      apply noFail_goIndex; intro plast
      exact noFail_czTwo _ _ _
    · rw [if_neg h2] at h
      cases h
      rfl

theorem parseCore_fail_eq (cc address : List Char) (e : GoErr)
    (h : parseCore cc address = GoResult.fail e) :
    e = GoErr.unsupportedCountryCode ∨ (e = GoErr.invalidOption ∧ cc = gs "CZ") := by
  unfold parseCore at h
  by_cases hs : cc ∈ SupportedCountryCodes
  · rw [if_pos hs] at h
    by_cases h1 : address.count '\n' = 1 ∧ cc ∈ newlineOneCodes
    · exact absurd h (by rw [if_pos h1]; exact noFail_parseGroup1 _ _)
    · rw [if_neg h1] at h
      by_cases h2 : address.count '\n' = 0 ∧ cc ∈ commaCodes
      · exact absurd h (by rw [if_pos h2]; exact noFail_parseSiHr _ _)
      · rw [if_neg h2] at h
        by_cases h3 : cc = gs "SK" ∧ address.count '\n' = 1
        · exact absurd h (by rw [if_pos h3]; exact noFail_parseSk1 _ _)
        · rw [if_neg h3] at h
          by_cases h4 : cc = gs "SK" ∧ address.count '\n' = 2
          · exact absurd h (by rw [if_pos h4]; exact noFail_parseSk2 _ _)
          · rw [if_neg h4] at h
            by_cases h5 : cc = gs "CZ"
            · rw [if_pos h5] at h
              exact Or.inr ⟨parseCz_fail_eq _ _ _ h, h5⟩
            · rw [if_neg h5] at h
              exact absurd h (noFail_ok _ _)
  · rw [if_neg hs] at h
    cases h
    exact Or.inl rfl

/-! ### Claims -/

/-- C1: the claim says that for countryCode "EL" with Greek city text,
`ParseAddress` transliterates the city unless `IgnoreGreek` is set.  The
code never does: `greekExpressions` and the `config` parameter are never
read by `ParseAddress`, and no dispatch branch matches "EL", so every EL
call returns an all-empty `ParsedAddress` with no error — the city is
neither transliterated nor returned in Greek, for every configuration. -/
theorem C1_el_never_transliterated :
    ParseAddress (gs "EL") (gs "Οδός Αθηνάς 1\n104 55 Αθήνα") [] =
      GoResult.ok ⟨[], [], []⟩ ∧
    ParseAddress (gs "EL") (gs "Οδός Αθηνάς 1\n104 55 Αθήνα") [⟨false⟩] =
      GoResult.ok ⟨[], [], []⟩ ∧
    ParseAddress (gs "EL") (gs "Οδός Αθηνάς 1\n104 55 Αθήνα") [⟨true⟩] =
      GoResult.ok ⟨[], [], []⟩ := by
  decide

/-- C2: the claim says SI "Neka ulica 5, 1000 Ljubljana" parses to
Street="Neka ulica 5", Zip="1000", City="Ljubljana".  The code splits the
untrimmed last comma part " 1000 Ljubljana" on space, so token 0 is the
empty string: the actual result is Street="Neka ulica 5", City="1000",
Zip="" with no error. -/
theorem C2_si_example_actual :
    ParseAddress (gs "SI") (gs "Neka ulica 5, 1000 Ljubljana") [] =
      GoResult.ok ⟨gs "Neka ulica 5", gs "1000", []⟩ := by
  decide

/-- C3 counterexample: a whitespace-only country code is NOT reported as
`MissingCountryCode` (it trims to empty and falls into the unsupported
check), and a whitespace-only address is NOT reported as
`MissingAddress` (it proceeds to dispatch and returns an empty result). -/
theorem C3_counterexample :
    ParseAddress (gs " ") (gs "x") [] = GoResult.fail GoErr.unsupportedCountryCode ∧
    ParseAddress (gs " ") (gs "x") [] ≠ GoResult.fail GoErr.missingCountryCode ∧
    ParseAddress (gs "NL") (gs " ") [] = GoResult.ok ⟨[], [], []⟩ ∧
    ParseAddress (gs "NL") (gs " ") [] ≠ GoResult.fail GoErr.missingAddress := by
  decide

/-- C3 (amended): the emptiness checks compare the RAW arguments, before
trimming.  `ParseAddress` fails with `MissingCountryCode` exactly when
the country-code argument is the empty string, and with `MissingAddress`
exactly when the country code is non-empty and the address argument is
the empty string; whitespace-only inputs pass both checks. -/
theorem C3_raw_emptiness_checks (cc addr : List Char) (cfg : List Config) :
    (ParseAddress cc addr cfg = GoResult.fail GoErr.missingCountryCode ↔ cc = []) ∧
    (ParseAddress cc addr cfg = GoResult.fail GoErr.missingAddress ↔ cc ≠ [] ∧ addr = []) := by
  unfold ParseAddress
  by_cases hcc : cc.length = 0
  · have hcc2 : cc = [] := List.length_eq_zero.mp hcc
    rw [if_pos hcc]
    refine ⟨by simp [hcc2], ?_, ?_⟩
    · intro hc
      exact absurd hc (by decide)
    · rintro ⟨hne, _⟩
      exact absurd hcc2 hne
  · have hcc2 : cc ≠ [] := fun he => hcc (by simp [he])
    rw [if_neg hcc]
    by_cases had : addr.length = 0
    · have had2 : addr = [] := List.length_eq_zero.mp had
      rw [if_pos had]
      refine ⟨⟨?_, ?_⟩, by simp [hcc2, had2]⟩
      · intro hc
        exact absurd hc (by decide)
      · intro hc
        exact absurd hc hcc2
    · have had2 : addr ≠ [] := fun he => had (by simp [he])
      rw [if_neg had]
      refine ⟨⟨?_, ?_⟩, ⟨?_, ?_⟩⟩
      · intro hc
        rcases parseCore_fail_eq _ _ _ hc with h1 | ⟨h1, _⟩ <;> simp at h1
      · intro hc
        exact absurd hc hcc2
      · intro hc
        rcases parseCore_fail_eq _ _ _ hc with h1 | ⟨h1, _⟩ <;> simp at h1
      · rintro ⟨_, had3⟩
        exact absurd had3 had2

/-- C3 witness: the amended characterisation applied at concrete raw-empty
inputs. -/
theorem C3_raw_emptiness_checks_witness :
    ParseAddress [] (gs "x") [] = GoResult.fail GoErr.missingCountryCode ∧
    ParseAddress (gs "NL") [] [] = GoResult.fail GoErr.missingAddress :=
  ⟨(C3_raw_emptiness_checks [] (gs "x") []).1.mpr rfl,
   (C3_raw_emptiness_checks (gs "NL") [] []).2.mpr ⟨by decide, rfl⟩⟩

/-- C4 counterexample: on the three-line SK address with middle line
exactly "Slovensko" the returned street is "Hlavná 1", not the empty
string the claim predicts. -/
theorem C4_counterexample :
    streetOf (ParseAddress (gs "SK") (gs "Hlavná 1\nSlovensko\n811 01 Bratislava") []) ≠ [] := by
  decide

/-- C4 (amended): the three-line address has newline count 2, so the
"Slovensko" special case (which lives only in the one-newline branch)
never fires: `ParseAddress` keeps Street="Hlavná 1" and takes Zip="811"
and City="01" from space tokens 0 and 1 of the LAST line. -/
theorem C4_sk_three_lines :
    ParseAddress (gs "SK") (gs "Hlavná 1\nSlovensko\n811 01 Bratislava") [] =
      GoResult.ok ⟨gs "Hlavná 1", gs "01", gs "811"⟩ := by
  decide

/-- C5 counterexample: SK with a zero-newline address does not fail with
`UnsupportedCountryCode`; it returns an empty result with no error. -/
theorem C5_counterexample :
    ParseAddress (gs "SK") (gs "abc") [] = GoResult.ok ⟨[], [], []⟩ ∧
    ParseAddress (gs "SK") (gs "abc") [] ≠ GoResult.fail GoErr.unsupportedCountryCode := by
  decide

/-- C5 (amended): for countryCode "SK" and every trimmed non-empty address
whose newline count is neither 1 nor 2, `ParseAddress` falls through every
dispatch branch and returns an all-empty `ParsedAddress` with NO error. -/
theorem C5_sk_other_newlines_silent (addr : List Char) (cfg : List Config)
    (h0 : trimSpace addr ≠ [])
    (h1 : (trimSpace addr).count '\n' ≠ 1)
    (h2 : (trimSpace addr).count '\n' ≠ 2) :
    ParseAddress (gs "SK") addr cfg = GoResult.ok ⟨[], [], []⟩ := by
  have haddr : addr ≠ [] := trimSpace_ne_nil_of addr h0
  unfold ParseAddress
  rw [if_neg (by decide : ¬ (gs "SK").length = 0),
      if_neg (fun hl => haddr (List.length_eq_zero.mp hl)),
      (by decide : trimSpace (gs "SK") = gs "SK")]
  unfold parseCore
  rw [if_pos (by decide : gs "SK" ∈ SupportedCountryCodes),
      if_neg (fun hc => (by decide : gs "SK" ∉ newlineOneCodes) hc.2),
      if_neg (fun hc => (by decide : gs "SK" ∉ commaCodes) hc.2),
      if_neg (fun hc => h1 hc.2),
      if_neg (fun hc => h2 hc.2),
      if_neg (by decide : ¬ gs "SK" = gs "CZ")]

/-- C5 witness: the amended statement applied at a concrete one-line SK
address. -/
theorem C5_sk_other_newlines_silent_witness :
    ParseAddress (gs "SK") (gs "Mesto 1") [] = GoResult.ok ⟨[], [], []⟩ :=
  C5_sk_other_newlines_silent (gs "Mesto 1") [] (by decide) (by decide) (by decide)

/-- C6: the NL example parses exactly as claimed: Street="Hoofdstraat 1",
Zip="1234", City="AB" — only the second space token of line 2 becomes the
city and "Amsterdam" is dropped. -/
theorem C6_nl_example :
    ParseAddress (gs "NL") (gs "Hoofdstraat 1\n1234 AB Amsterdam") [] =
      GoResult.ok ⟨gs "Hoofdstraat 1", gs "AB", gs "1234"⟩ := by
  decide

/-- C7: for countryCode "CZ" and every trimmed non-empty address whose
newline count is neither 1 nor 2, `ParseAddress` fails with
`InvalidOption`; and whenever `ParseAddress` returns `InvalidOption` the
trimmed country code is "CZ" — no other country ever produces it. -/
theorem C7_cz_invalid_option :
    (∀ (addr : List Char) (cfg : List Config), trimSpace addr ≠ [] →
      (trimSpace addr).count '\n' ≠ 1 → (trimSpace addr).count '\n' ≠ 2 →
      ParseAddress (gs "CZ") addr cfg = GoResult.fail GoErr.invalidOption) ∧
    (∀ (cc addr : List Char) (cfg : List Config),
      ParseAddress cc addr cfg = GoResult.fail GoErr.invalidOption →
      trimSpace cc = gs "CZ") := by
  constructor
  · intro addr cfg h0 h1 h2
    have haddr : addr ≠ [] := trimSpace_ne_nil_of addr h0
    unfold ParseAddress
    rw [if_neg (by decide : ¬ (gs "CZ").length = 0),
        if_neg (fun hl => haddr (List.length_eq_zero.mp hl)),
        (by decide : trimSpace (gs "CZ") = gs "CZ")]
    unfold parseCore
    rw [if_pos (by decide : gs "CZ" ∈ SupportedCountryCodes),
        if_neg (fun hc => (by decide : gs "CZ" ∉ newlineOneCodes) hc.2),
        if_neg (fun hc => (by decide : gs "CZ" ∉ commaCodes) hc.2),
        if_neg (fun hc => (by decide : ¬ gs "CZ" = gs "SK") hc.1),
        if_neg (fun hc => (by decide : ¬ gs "CZ" = gs "SK") hc.1),
        if_pos rfl]
    unfold parseCz
    rw [if_neg h1, if_neg h2]
  · intro cc addr cfg h
    unfold ParseAddress at h
    by_cases hcc : cc.length = 0
    · rw [if_pos hcc] at h
      exact absurd h (by decide)
    · rw [if_neg hcc] at h
      by_cases had : addr.length = 0
      · rw [if_pos had] at h
        exact absurd h (by decide)
      · rw [if_neg had] at h
        rcases parseCore_fail_eq _ _ _ h with h1 | ⟨_, h2⟩
        · simp at h1
        · exact h2

/-- C7 witness: both conjuncts applied at a concrete zero-newline CZ
address. -/
theorem C7_cz_invalid_option_witness :
    ParseAddress (gs "CZ") (gs "Praha") [] = GoResult.fail GoErr.invalidOption ∧
    trimSpace (gs "CZ") = gs "CZ" :=
  ⟨C7_cz_invalid_option.1 (gs "Praha") [] (by decide) (by decide) (by decide),
   C7_cz_invalid_option.2 (gs "CZ") (gs "Praha") []
     (C7_cz_invalid_option.1 (gs "Praha") [] (by decide) (by decide) (by decide))⟩

/-- C8 counterexample: for the whitespace-only address " " the outcome
changes when the address is pre-trimmed: the original returns an empty
result with no error, the trimmed one fails with `MissingAddress`. -/
theorem C8_counterexample :
    ParseAddress (gs "NL") (trimSpace (gs " ")) [] ≠ ParseAddress (gs "NL") (gs " ") [] := by
  decide

/-- C8 (amended): pre-trimming the address never changes the outcome
PROVIDED the address does not trim to the empty string (for whitespace-only
addresses the raw emptiness check distinguishes the two calls). -/
theorem C8_trim_invariant (cc addr : List Char) (cfg : List Config)
    (h : trimSpace addr ≠ []) :
    ParseAddress cc (trimSpace addr) cfg = ParseAddress cc addr cfg := by
  have haddr : addr ≠ [] := trimSpace_ne_nil_of addr h
  unfold ParseAddress
  by_cases hcc : cc.length = 0
  · rw [if_pos hcc, if_pos hcc]
  · rw [if_neg hcc, if_neg hcc,
        if_neg (fun hl => h (List.length_eq_zero.mp hl)),
        if_neg (fun hl => haddr (List.length_eq_zero.mp hl)),
        trimSpace_trimSpace]

/-- C8 witness: the amended invariance applied at a concrete padded NL
address. -/
theorem C8_trim_invariant_witness :
    ParseAddress (gs "NL") (trimSpace (gs " Hoofdstraat 1\n1234 AB Amsterdam ")) [] =
      ParseAddress (gs "NL") (gs " Hoofdstraat 1\n1234 AB Amsterdam ") [] :=
  C8_trim_invariant (gs "NL") (gs " Hoofdstraat 1\n1234 AB Amsterdam ") [] (by decide)

/-- C9: the configuration parameter is never read by `ParseAddress`, so
any two configuration lists (empty = omitted, `IgnoreGreek` true or
false) give identical outcomes. -/
theorem C9_config_irrelevant (cc addr : List Char) (c1 c2 : List Config) :
    ParseAddress cc addr c1 = ParseAddress cc addr c2 := rfl

/-- C10: there is a supported country code and a non-empty address on
which `ParseAddress` panics with an index out of range instead of
returning: NL with a second line containing no space indexes
`locationParts[1]` on a one-element slice. -/
theorem C10_panic_exists :
    ∃ cc addr, cc ∈ SupportedCountryCodes ∧ addr ≠ [] ∧
      ParseAddress cc addr [] = GoResult.panic :=
  ⟨gs "NL", gs "Hoofdstraat 1\nAmsterdam", by decide, by decide, by decide⟩
